import Mathlib

/-!
Verification of the rcos_io portal application (Django models and views)
against its natural-language specification, via a shallow embedding of the
relevant Python code in Lean.

Conventions of the embedding:
* Django model instances become Lean structures holding the fields the
  verified code reads or writes.
* Python `str` values are embedded as `List Char` (abbreviated `Str`);
  Python string methods become the corresponding list operations, and the
  Python truthiness test on a string is the emptiness test `s = []`.
* Nullable foreign keys and `None`-able values are `Option _`.
* Dates and datetimes are `Nat` (only order comparisons are performed on
  them, and the `isoformat` rendering of a datetime is modelled by the
  datetime value itself).
* Database lookups are passed in explicitly (as `List`/`Option` arguments),
  and external API calls are recorded as values describing the request made.
-/

namespace Portal

/-- Python `str` values are embedded as lists of characters. -/
abbrev Str := List Char

/-- Python `str.lower`, embedded characterwise (the code only lowercases
ASCII email local parts). -/
def pyLower (s : Str) : Str := s.map Char.toLower

/-- Python `str.removesuffix`: drops the suffix when it is present,
otherwise returns the string unchanged. -/
def pyRemoveSuffix (s suffix : Str) : Str :=
  if suffix.isSuffixOf s then s.take (s.length - suffix.length) else s

/-- Python substring containment, the `in` operator on `str`. -/
def hasSubstring (needle : Str) : Str → Bool
  | [] => needle.isEmpty
  | c :: cs => needle.isPrefixOf (c :: cs) || hasSubstring needle cs

/-- The two user roles, `User.RPI = "rpi"` and `User.EXTERNAL = "external"`
(`portal/models.py`, `ROLE_CHOICES`). -/
inductive Role where
  | rpi
  | external
deriving DecidableEq, Repr

/-- Embedding of the `User` model fields read or written by
`pre_save_user`, `User.clean`, `User.can_propose_project` and the views
(`portal/models.py`).  `adding` embeds `instance._state.adding`
(Django: `True` while the instance has not yet been persisted);
`is_active` is the `AbstractUser` active flag; `owned_projects_count`
embeds `self.owned_projects.count()`. -/
structure User where
  email : Str
  is_approved : Bool
  role : Role
  rcs_id : Str
  graduation_year : Option Nat
  discord_user_id : Str
  is_active : Bool
  owned_projects_count : Nat
  adding : Bool
deriving DecidableEq, Repr

/-- Embedding of `pre_save_user` (`portal/models.py` lines 235-239):
when `instance._state.adding and instance.email.endswith("@rpi.edu")`,
the hook sets `role = User.RPI`, `is_approved = True` and
`rcs_id = instance.email.removesuffix("@rpi.edu").lower()`;
otherwise the instance is untouched. -/
def pre_save_user (inst : User) : User :=
  if inst.adding ∧ ("@rpi.edu".toList).isSuffixOf inst.email then
    { inst with
        role := Role.rpi
        is_approved := true
        rcs_id := pyLower (pyRemoveSuffix inst.email ("@rpi.edu".toList)) }
  else
    inst

/-- Embedding of `User.clean` (`portal/models.py` lines 227-229): raises
`ValidationError` (the `Except.error` case) when
`self.role != User.RPI and self.graduation_year is not None`. -/
def User.clean (self : User) : Except String Unit :=
  if self.role ≠ Role.rpi ∧ self.graduation_year ≠ none then
    Except.error "Only RPI users can have a graduation year set."
  else
    Except.ok ()

/-- Embedding of the `Semester` model fields used by `Semester.is_active`
and `User.can_propose_project` (`portal/models.py`). -/
structure Semester where
  id : Str
  is_accepting_new_projects : Bool
  start_date : Nat
  end_date : Nat
deriving DecidableEq, Repr

/-- Embedding of the `Semester.is_active` property
(`portal/models.py` lines 61-64): `self.start_date <= now <= self.end_date`
where `now = timezone.now().date()`; the current date is the explicit
argument `now`. -/
def Semester.is_active (self : Semester) (now : Nat) : Bool :=
  self.start_date ≤ now ∧ now ≤ self.end_date

/-- Embedding of the `Enrollment` model fields used by
`User.can_propose_project`, the `Meta.unique_together` constraint and the
dashboard view.  `project = none` embeds a `NULL` project foreign key
(the `SET_NULL` deletion behaviour). -/
structure Enrollment where
  semester_id : Str
  user_email : Str
  project : Option Str
  is_project_lead : Bool
  is_coordinator : Bool
  is_faculty_advisor : Bool
deriving DecidableEq, Repr

/-- Embedding of `Enrollment.objects.get(user=self, semester=semester)`:
a lookup in the enrollments table by user and semester; `none` is the
`Enrollment.DoesNotExist` case.  (The table is keyed uniquely on
`(semester, user)`, so `find?` returns the unique match when present.) -/
def getEnrollment (enrollments : List Enrollment) (u : User) (s : Semester) :
    Option Enrollment :=
  enrollments.find? fun e => e.user_email = u.email ∧ e.semester_id = s.id

/-- Embedding of `User.can_propose_project` (`portal/models.py`
lines 196-217), with the current date `now` and the enrollments table
passed explicitly, and `semester : Option Semester` embedding the Python
argument which the code tests for falsiness (`not semester`).  The code
returns `False` when the user is not approved or not active; then `False`
when the semester is falsy, not active, or not accepting new projects;
then `False` when `self.owned_projects.count() >= 4`; then `False` when
the enrollment lookup succeeds and its `project` is truthy, and `True`
when the lookup raises `Enrollment.DoesNotExist` or the enrollment has no
project. -/
def User.can_propose_project (self : User) (semester : Option Semester)
    (now : Nat) (enrollments : List Enrollment) : Bool :=
  if ¬self.is_approved ∨ ¬self.is_active then
    false
  else
    match semester with
    | none => false
    | some sem =>
      if ¬sem.is_active now ∨ ¬sem.is_accepting_new_projects then
        false
      else if self.owned_projects_count ≥ 4 then
        false
      else
        match getEnrollment enrollments self sem with
        | some e => if e.project.isSome then false else true
        | none => true

/-- Specification-side notion for C1: the local part of an institutional
email, that is the unique prefix `l` with `email = l ++ "@rpi.edu"`, and
`none` when the email does not end with that suffix (see
`rpiLocalPart_eq_some_iff`). -/
def rpiLocalPart (email : Str) : Option Str :=
  if ("@rpi.edu".toList).isSuffixOf email then
    some (email.take (email.length - ("@rpi.edu".toList).length))
  else
    none

/-! ### Schema-level uniqueness constraints (claims C3 and C7)

A database table with a UNIQUE constraint on a key is modelled as a
`List` of rows together with the rule that an INSERT or UPDATE whose
result would duplicate a key fails, leaving the table unchanged.  This
is the semantics Django declares through `unique_together` and the
migration operation `AlterUniqueTogether`. -/

/-- The SQL statements that can change the contents of one table:
INSERT a row, DELETE the rows matching a condition, or UPDATE the rows
matching a condition with a per-row change. -/
inductive TableOp (α : Type) where
  | insert (row : α)
  | delete (cond : α → Bool)
  | update (cond : α → Bool) (change : α → α)

/-- Whether some row of the table has the given key. -/
def hasKey {α κ : Type} [DecidableEq κ] (key : α → κ) (t : List α) (k : κ) : Bool :=
  t.any fun x => key x = k

/-- Executable check that all rows of the table have pairwise distinct
keys (the UNIQUE constraint, checked by the database engine). -/
def distinctKeys {α κ : Type} [DecidableEq κ] (key : α → κ) : List α → Bool
  | [] => true
  | x :: xs => !hasKey key xs (key x) && distinctKeys key xs

/-- Semantics of one SQL statement against a table carrying a UNIQUE
constraint on `key`: an INSERT of a row whose key is already present
fails (the table is unchanged), a DELETE always succeeds, and an UPDATE
whose result would violate the constraint fails as a whole. -/
def applyOp {α κ : Type} [DecidableEq κ] (key : α → κ) (t : List α) :
    TableOp α → List α
  | TableOp.insert r => if hasKey key t (key r) then t else t ++ [r]
  | TableOp.delete c => t.filter fun x => !c x
  | TableOp.update c f =>
    let t2 := t.map fun x => if c x then f x else x
    if distinctKeys key t2 then t2 else t

/-- Running a sequence of SQL statements against a table with a UNIQUE
constraint on `key`. -/
def applyOps {α κ : Type} [DecidableEq κ] (key : α → κ) (t : List α)
    (ops : List (TableOp α)) : List α :=
  ops.foldl (applyOp key) t

/-- Embedding of the `ProjectPitch` model fields (`portal/models.py`
lines 338-348): foreign keys to a semester and a project, and the pitch
URL. -/
structure ProjectPitch where
  semester : Str
  project : Str
  url : Str
deriving DecidableEq, Repr

/-- The UNIQUE key declared for `ProjectPitch` by migration
`0003_alter_projectpitch_url_and_more.py`:
`AlterUniqueTogether(name="projectpitch", unique_together={("semester", "project")})`. -/
def pitchKey (r : ProjectPitch) : Str × Str :=
  (r.semester, r.project)

/-- The UNIQUE key declared for `Enrollment` by
`Enrollment.Meta.unique_together = ("semester", "user")`
(`portal/models.py` lines 460-461). -/
def enrollmentKey (e : Enrollment) : Str × Str :=
  (e.semester_id, e.user_email)

/-! ### Meetings and the Discord event sync (claims C2 and C6) -/

/-- The `Meeting.type` choices (`portal/models.py`, `TYPE_CHOICES`). -/
inductive MeetingType where
  | small_group
  | large_group
  | workshop
  | mentor
  | coordinator
deriving DecidableEq, Repr

/-- Django `get_type_display()`: the human-readable label of the type
from `TYPE_CHOICES`. -/
def MeetingType.display : MeetingType → Str
  | MeetingType.small_group => "Small Group".toList
  | MeetingType.large_group => "Large Group".toList
  | MeetingType.workshop => "Workshop".toList
  | MeetingType.mentor => "Mentor".toList
  | MeetingType.coordinator => "Coordinator".toList

/-- Embedding of the `Meeting` model fields used by
`sync_discord_event`, `display_name` and `presentation_embed_url`
(`portal/models.py`).  A blank `discord_event_id` (`[]`) means no remote
Discord event id is stored. -/
structure Meeting where
  pk : Nat
  name : Str
  type : MeetingType
  is_published : Bool
  starts_at : Nat
  ends_at : Nat
  location : Str
  presentation_url : Str
  discord_event_id : Str
deriving DecidableEq, Repr

/-- Embedding of the `Meeting.display_name` property:
`self.name or self.get_type_display()`. -/
def Meeting.display_name (m : Meeting) : Str :=
  if m.name = [] then m.type.display else m.name

/-- Embedding of the description f-string built inside
`Meeting.sync_discord_event`: the type display followed by the literal
text ` Meeting**`, a blank indented line, the `View details:` line with
the meeting primary key interpolated, then an indented line holding
`Slides: ` and the presentation URL when that URL is truthy (empty
otherwise), and a final indented line. -/
def Meeting.event_description (m : Meeting) : Str :=
  ("**".toList) ++ m.type.display ++ (" Meeting**\n        \n        View details: https://rcos.up.railway.app/meetings/".toList)
    ++ ((toString m.pk).toList)
    ++ ("\n        ".toList)
    ++ (if m.presentation_url = [] then [] else ("Slides: ".toList) ++ m.presentation_url)
    ++ ("\n        ".toList)

/-- A call made to the Discord API by `portal.services.discord`, with the
arguments the meeting code passes (`scheduled_start_time` and
`scheduled_end_time` carry the datetimes whose `isoformat` strings are
sent). -/
inductive DiscordCall where
  | createEvent (name : Str) (scheduled_start_time scheduled_end_time : Nat)
      (description : Str) (location : Str)
  | updateEvent (event_id : Str) (name : Str)
      (scheduled_start_time scheduled_end_time : Nat)
      (description : Str) (location : Str)
deriving DecidableEq, Repr

/-- Embedding of `Meeting.sync_discord_event` (`portal/models.py`
lines 559-583).  `newEventId` is the id field of the event object the
Discord API would return for a create call.  The result is the meeting
state after the call together with the list of Discord API calls made:

* when `not self.discord_event_id and self.is_published`, the code calls
  `discord.create_server_event(...)`, stores the returned id on the
  meeting, and saves it (the save re-fires the post-save hook, which then
  takes the update branch; the claims concern a single sync invocation);
* when `self.discord_event_id and self.is_published`, the code calls
  `discord.update_server_event(self.discord_event_id, ...)`;
* otherwise no API call is made. -/
def Meeting.sync_discord_event (m : Meeting) (newEventId : Str) :
    Meeting × List DiscordCall :=
  if m.discord_event_id = [] ∧ m.is_published then
    ({ m with discord_event_id := newEventId },
     [DiscordCall.createEvent m.display_name m.starts_at m.ends_at
        m.event_description m.location])
  else if ¬m.discord_event_id = [] ∧ m.is_published then
    (m,
     [DiscordCall.updateEvent m.discord_event_id m.display_name m.starts_at
        m.ends_at m.event_description m.location])
  else
    (m, [])

/-- Embedding of the `post_save` receiver
`sync_meeting_with_discord_event_on_save` (`portal/models.py`
lines 603-610): its body runs `instance.sync_discord_event()`. -/
def sync_meeting_with_discord_event_on_save (instance_ : Meeting)
    (newEventId : Str) : Meeting × List DiscordCall :=
  instance_.sync_discord_event newEventId

/-- The character class of the regular expression `[-\w]` used by
`Meeting.presentation_embed_url`: a word character (letter, digit or
underscore; ASCII reading of the regex `\w`) or a hyphen. -/
def wordDash (c : Char) : Bool :=
  c.isAlphanum || c = '_' || c = '-'

/-- Semantics of `re.search(r"[-\w]{25,}", s)`: scan the start positions
of `s` left to right and, at the first position from which at least 25
characters of the class `[-\w]` follow, return the greedy (maximal) run
starting there; `none` when no position admits such a run. -/
def reSearchWordRun : Str → Option Str
  | [] => none
  | c :: cs =>
    if 25 ≤ ((c :: cs).takeWhile wordDash).length then
      some ((c :: cs).takeWhile wordDash)
    else
      reSearchWordRun cs

/-- The decomposition of a string into its maximal runs of `[-\w]`
characters, in order of appearance (the separator characters are
dropped). -/
def wordRuns : Str → List Str
  | [] => []
  | c :: cs =>
    if wordDash c then
      (c :: cs.takeWhile wordDash) :: wordRuns (cs.dropWhile wordDash)
    else
      wordRuns cs
termination_by s => s.length
decreasing_by
  · simp only [List.length_cons]
    exact Nat.lt_succ_of_le (List.dropWhile_sublist wordDash).length_le
  · simp

/-- Specification-side reading of the claim about the embed URL: the
first maximal run of at least 25 word-or-hyphen characters in the
string. -/
def firstLongWordRun (s : Str) : Option Str :=
  (wordRuns s).find? fun r => 25 ≤ r.length

/-- Embedding of the `Meeting.presentation_embed_url` property
(`portal/models.py` lines 531-542): when the presentation URL is truthy
and contains the substring `docs.google.com/presentation/d`, search it
with `re.search(r"[-\w]{25,}", ...)`; on a match, format the embed URL
around the matched id, otherwise (and in every other case) return
`None`. -/
def Meeting.presentation_embed_url (m : Meeting) : Option Str :=
  if ¬m.presentation_url = [] ∧
      hasSubstring ("docs.google.com/presentation/d".toList) m.presentation_url then
    match reSearchWordRun m.presentation_url with
    | some presentation_id =>
      some (("https://docs.google.com/presentation/d/".toList)
        ++ presentation_id ++ ("/embed".toList))
    | none => none
  else
    none

/-! ### The dashboard view (claim C8) -/

/-- The parts of the Django cache the dashboard view touches:
`active_semester` (read with `cache.get`) and the three splash-page
statistics (read/written with `cache.get_or_set`). -/
structure Cache where
  active_semester : Option Semester
  enrollment_count : Option Nat
  project_count : Option Nat
  active_semester_admins : Option (List Enrollment)
deriving Repr

/-- A write performed on the Django cache: the key set and the timeout
(expiry, in seconds) passed with it. -/
structure CacheWrite where
  key : String
  timeout : Nat
deriving DecidableEq, Repr

/-- The database state the dashboard view queries: the enrollments table
and the value of `Project.objects.count()`. -/
structure PortalDB where
  enrollments : List Enrollment
  projects_count : Nat
deriving Repr

/-- Embedding of the admin query of the splash page:
`Enrollment.objects.filter(Q(is_faculty_advisor=True) | Q(is_coordinator=True), semester=active_semester)`.
When `active_semester` is `None` the `semester=None` filter matches no
row, since the `Enrollment.semester` foreign key is not nullable. -/
def semesterAdmins (db : PortalDB) (active : Option Semester) : List Enrollment :=
  db.enrollments.filter fun e =>
    (e.is_faculty_advisor || e.is_coordinator) &&
      (match active with
       | some s => decide (e.semester_id = s.id)
       | none => false)

/-- The template context assembled by `IndexView.get_context_data`
(`portal/views/index.py`).  A field of value `none` in an `Option`-typed
slot that marks key presence means the key was not put into the context
dictionary; `ongoing_meeting` is always present and holds an optional
meeting.  `μ` is the type of the meeting values produced by the meeting
queries and `χ` the result type of the permission checks (their code
lives outside the model layer under verification and is passed in as
functions). -/
structure IndexContext (μ χ : Type) where
  next_meeting : Option μ
  now : Option Nat
  ongoing_meeting : Option μ
  is_user_rpi_check : Option χ
  can_enroll_check : Option χ
  can_create_project_check : Option χ
  enrollment : Option (Option Enrollment)
  project_team_enrollments : Option (List Enrollment)
  has_submit_attendance_form : Bool
  enrollment_count : Option Nat
  project_count : Option Nat
  active_semester_admins : Option (List Enrollment)

/-- Embedding of `IndexView.get_context_data` (`portal/views/index.py`
lines 18-73).  Inputs: the authentication state of the request, the
requesting user, the cache and database states, the current time, the
results of the two meeting queries (`next_meeting` and
`Meeting.get_ongoing`), and the three permission checks as functions.
Output: the assembled context and the list of cache writes performed
(each `cache.get_or_set` writes its key with timeout `60 * 60 * 24`
exactly when the key was absent). -/
def get_context_data {μ χ : Type} (authenticated : Bool) (user : User)
    (cache : Cache) (db : PortalDB) (now : Nat)
    (next_meeting ongoing : Option μ)
    (checkUserRPI : User → χ)
    (checkUserCanEnroll checkUserCanCreateProject : User → Option Semester → χ) :
    IndexContext μ χ × List CacheWrite :=
  let active_semester := cache.active_semester
  if authenticated then
    let enrollment : Option Enrollment :=
      match active_semester with
      | some s =>
        db.enrollments.find? fun e =>
          e.user_email = user.email ∧ e.semester_id = s.id
      | none => none
    let team : List Enrollment :=
      match enrollment with
      | some e =>
        match e.project with
        | some p =>
          db.enrollments.filter fun e2 =>
            decide (e2.project = some p) &&
              (match active_semester with
               | some s => decide (e2.semester_id = s.id)
               | none => false)
        | none => []
      | none => []
    ({ next_meeting := next_meeting
       now := some now
       ongoing_meeting := ongoing
       is_user_rpi_check := some (checkUserRPI user)
       can_enroll_check := some (checkUserCanEnroll user active_semester)
       can_create_project_check := some (checkUserCanCreateProject user active_semester)
       enrollment := some enrollment
       project_team_enrollments := some team
       has_submit_attendance_form := false
       enrollment_count := none
       project_count := none
       active_semester_admins := none }, [])
  else
    ({ next_meeting := next_meeting
       now := none
       ongoing_meeting := none
       is_user_rpi_check := none
       can_enroll_check := none
       can_create_project_check := none
       enrollment := none
       project_team_enrollments := none
       has_submit_attendance_form := true
       enrollment_count := some (cache.enrollment_count.getD db.enrollments.length)
       project_count := some (cache.project_count.getD db.projects_count)
       active_semester_admins :=
         some (cache.active_semester_admins.getD (semesterAdmins db active_semester)) },
     (if cache.enrollment_count.isNone then [⟨"enrollment_count", 60 * 60 * 24⟩] else [])
       ++ (if cache.project_count.isNone then [⟨"project_count", 60 * 60 * 24⟩] else [])
       ++ (if cache.active_semester_admins.isNone then
            [⟨"active_semester_admins", 60 * 60 * 24⟩]
          else []))

/-! ### The Discord account-linking callback (claim C10) -/

/-- The token object returned by `discord.get_tokens`; the view reads its
`access_token` entry. -/
structure DiscordTokens where
  access_token : Str
deriving DecidableEq, Repr

/-- The user-info object returned by `discord.get_user_info`; the view
reads its `id` entry. -/
structure DiscordUserInfo where
  id : Str
deriving DecidableEq, Repr

/-- The possible responses of `discord_link_callback`: the `BadRequest`
exception, the returned `HTTPError` value, or the redirect to `/`. -/
inductive LinkResponse where
  | badRequest
  | httpError (e : String)
  | redirectHome
deriving DecidableEq, Repr

/-- Embedding of `discord_link_callback` (`portal/views/auth.py`
lines 26-43).  `code` is `request.GET.get("code")` (`none` when the query
parameter is absent); `get_tokens` and `get_user_info` embed the two
Discord API calls, with `Except.error` as the raised `HTTPError`.  The
result is the response, the state of `request.user`, and whether
`request.user.save()` was called. -/
def discord_link_callback (code : Option String)
    (get_tokens : String → Except String DiscordTokens)
    (get_user_info : Str → Except String DiscordUserInfo)
    (user : User) : LinkResponse × User × Bool :=
  match code with
  | none => (LinkResponse.badRequest, user, false)
  | some c =>
    if c = "" then
      (LinkResponse.badRequest, user, false)
    else
      match get_tokens c with
      | Except.error e => (LinkResponse.httpError e, user, false)
      | Except.ok tokens =>
        match get_user_info tokens.access_token with
        | Except.error e => (LinkResponse.httpError e, user, false)
        | Except.ok info =>
          (LinkResponse.redirectHome,
           { user with discord_user_id := info.id }, true)

/-! ## Theorems -/

/-- Characterization of `rpiLocalPart` in the words of the specification:
it returns some `l` exactly when the email is `l` followed by the
institutional suffix. -/
theorem rpiLocalPart_eq_some_iff (email l : Str) :
    rpiLocalPart email = some l ↔ email = l ++ ("@rpi.edu".toList) := by
  constructor
  · intro h
    unfold rpiLocalPart at h
    by_cases hs : ("@rpi.edu".toList).isSuffixOf email
    · rw [if_pos hs] at h
      obtain ⟨t, ht⟩ := List.isSuffixOf_iff_suffix.mp hs
      have hlen : email.length - ("@rpi.edu".toList).length = t.length := by
        rw [← ht, List.length_append]
        simp
      have htake : email.take (email.length - ("@rpi.edu".toList).length) = t := by
        rw [hlen, ← ht, List.take_left]
      rw [htake] at h
      cases h
      exact ht.symm
    · rw [if_neg hs] at h
      cases h
  · intro h
    subst h
    unfold rpiLocalPart
    rw [if_pos (List.isSuffixOf_iff_suffix.mpr (List.suffix_append l _))]
    have hlen : (l ++ ("@rpi.edu".toList)).length - ("@rpi.edu".toList).length
        = l.length := by
      rw [List.length_append]
      simp
    rw [hlen, List.take_left]

/-- C1: for a newly persisted user (`adding`) whose email ends with
`@rpi.edu`, the pre-save hook sets the role to RPI, approves the user,
and sets `rcs_id` to the lower-cased local part of the email (the email
with the suffix removed); in every other case the hook changes nothing.
The first conjunct pins `rpiLocalPart` to the literal meaning of
"the email with the suffix removed". -/
theorem pre_save_user_assigns_rpi_identity (u : User) (l : Str) :
    (rpiLocalPart u.email = some l ↔ u.email = l ++ ("@rpi.edu".toList))
  ∧ pre_save_user u =
      (match (if u.adding then rpiLocalPart u.email else none) with
       | some loc =>
         { u with role := Role.rpi, is_approved := true, rcs_id := pyLower loc }
       | none => u) := by
  refine ⟨rpiLocalPart_eq_some_iff u.email l, ?_⟩
  by_cases ha : u.adding = true
  · by_cases hs : ("@rpi.edu".toList).isSuffixOf u.email = true
    · unfold pre_save_user rpiLocalPart pyRemoveSuffix
      rw [if_pos ⟨ha, hs⟩, if_pos hs, if_pos ha, if_pos hs]
    · unfold pre_save_user rpiLocalPart
      rw [if_neg (fun hcon => hs hcon.2), if_pos ha, if_neg hs]
  · unfold pre_save_user rpiLocalPart
    rw [if_neg (fun hcon => ha hcon.1), if_neg ha]

/-- C4: validating a user raises a validation error exactly when the
role is not RPI and a graduation year is set; validation succeeds (in
particular, never fails for an RPI user) exactly when the role is RPI or
no graduation year is set. -/
theorem clean_rejects_graduation_year_iff (u : User) :
    ((∃ msg, u.clean = Except.error msg) ↔
      (u.role ≠ Role.rpi ∧ u.graduation_year ≠ none))
  ∧ (u.clean = Except.ok () ↔ (u.role = Role.rpi ∨ u.graduation_year = none)) := by
  by_cases h1 : u.role = Role.rpi <;> by_cases h2 : u.graduation_year = none <;>
    simp [User.clean, h1, h2]

/-- C5: proposal rights are gated by the semester: `is_active` is the
inclusive start/end date window test, `can_propose_project` is false
whenever the semester is inactive or not accepting new projects, and it
can only be true for an approved, active user in an active, accepting
semester. -/
theorem can_propose_project_gated_by_semester (u : User) (sem : Semester)
    (now : Nat) (enrollments : List Enrollment) :
    (sem.is_active now = true ↔ (sem.start_date ≤ now ∧ now ≤ sem.end_date))
  ∧ ((sem.is_active now = false ∨ sem.is_accepting_new_projects = false) →
      u.can_propose_project (some sem) now enrollments = false)
  ∧ (u.can_propose_project (some sem) now enrollments = true →
      u.is_approved = true ∧ u.is_active = true ∧ sem.is_active now = true ∧
        sem.is_accepting_new_projects = true) := by
  refine ⟨by simp [Semester.is_active], ?_, ?_⟩
  · intro h
    have hc : ¬sem.is_active now = true ∨ ¬sem.is_accepting_new_projects = true := by
      rcases h with h | h
      · exact Or.inl (by simp [h])
      · exact Or.inr (by simp [h])
    unfold User.can_propose_project
    split
    · rfl
    · dsimp only
      rw [if_pos hc]
  · intro h
    unfold User.can_propose_project at h
    by_cases hA : ¬u.is_approved = true ∨ ¬u.is_active = true
    · rw [if_pos hA] at h
      cases h
    · rw [if_neg hA] at h
      dsimp only at h
      obtain ⟨hA1, hA2⟩ := not_or.mp hA
      by_cases hB : ¬sem.is_active now = true ∨ ¬sem.is_accepting_new_projects = true
      · rw [if_pos hB] at h
        cases h
      · obtain ⟨hB1, hB2⟩ := not_or.mp hB
        exact ⟨not_not.mp hA1, not_not.mp hA2, not_not.mp hB1, not_not.mp hB2⟩

/-- Sample approved active user for the C5 witness. -/
def c5user : User :=
  { email := "a@b.c".toList, is_approved := true, role := Role.external,
    rcs_id := [], graduation_year := none, discord_user_id := [],
    is_active := true, owned_projects_count := 0, adding := false }

/-- Sample active, accepting semester for the C5 witness. -/
def c5semOpen : Semester :=
  { id := "202209".toList, is_accepting_new_projects := true,
    start_date := 5, end_date := 15 }

/-- Sample non-accepting semester for the C5 witness. -/
def c5semClosed : Semester :=
  { id := "202201".toList, is_accepting_new_projects := false,
    start_date := 5, end_date := 15 }

/-- Witness for C5 at concrete inputs: a non-accepting semester blocks
the proposal, and a positive `can_propose_project` outcome forces the
approved/active/accepting conditions. -/
theorem can_propose_project_gated_by_semester_witness :
    c5user.can_propose_project (some c5semClosed) 10 [] = false ∧
    (c5user.is_approved = true ∧ c5user.is_active = true ∧
      c5semOpen.is_active 10 = true ∧ c5semOpen.is_accepting_new_projects = true) :=
  ⟨(can_propose_project_gated_by_semester c5user c5semClosed 10 []).2.1
      (Or.inr rfl),
   (can_propose_project_gated_by_semester c5user c5semOpen 10 []).2.2
      (by decide)⟩

/-- C9: a user owning four or more projects can never propose, a user
already enrolled in the semester with a project assigned can never
propose, and a positive outcome forces fewer than four owned projects
and a project-free enrollment state in that semester. -/
theorem can_propose_project_owner_and_enrollment_limits (u : User)
    (sem : Option Semester) (now : Nat) (enrollments : List Enrollment) :
    (4 ≤ u.owned_projects_count →
      u.can_propose_project sem now enrollments = false)
  ∧ (∀ s e, sem = some s → getEnrollment enrollments u s = some e →
      e.project.isSome = true →
      u.can_propose_project sem now enrollments = false)
  ∧ (u.can_propose_project sem now enrollments = true →
      u.owned_projects_count < 4 ∧
        ∀ s, sem = some s → ∀ e, getEnrollment enrollments u s = some e →
          e.project = none) := by
  refine ⟨?_, ?_, ?_⟩
  · intro h4
    unfold User.can_propose_project
    cases sem with
    | none => split <;> rfl
    | some s =>
      split
      · rfl
      · dsimp only
        split
        · rfl
        · rfl
  · intro s e hsem henr hproj
    subst hsem
    unfold User.can_propose_project
    split
    · rfl
    · dsimp only
      split
      · rfl
      · split
        · rfl
        · rw [henr]
          dsimp only
          rw [if_pos hproj]
  · intro h
    unfold User.can_propose_project at h
    cases sem with
    | none =>
      split at h
      · cases h
      · dsimp only at h
        cases h
    | some s =>
      split at h
      · cases h
      · dsimp only at h
        split at h
        · cases h
        · split at h
          · cases h
          · rename_i hO
            refine ⟨Nat.not_le.mp hO, ?_⟩
            intro s2 hs2 e he
            cases hs2
            rw [he] at h
            dsimp only at h
            by_cases hp : e.project.isSome = true
            · rw [if_pos hp] at h
              cases h
            · exact Option.not_isSome_iff_eq_none.mp hp

/-- Sample user owning four projects for the C9 witness. -/
def c9owner : User :=
  { email := "o@x.y".toList, is_approved := true, role := Role.external,
    rcs_id := [], graduation_year := none, discord_user_id := [],
    is_active := true, owned_projects_count := 4, adding := false }

/-- Sample user with no owned project for the C9 witness. -/
def c9member : User :=
  { email := "e@x.y".toList, is_approved := true, role := Role.external,
    rcs_id := [], graduation_year := none, discord_user_id := [],
    is_active := true, owned_projects_count := 0, adding := false }

/-- Sample active accepting semester for the C9 witness. -/
def c9sem : Semester :=
  { id := "202301".toList, is_accepting_new_projects := true,
    start_date := 0, end_date := 100 }

/-- Sample enrollment with an assigned project for the C9 witness. -/
def c9enrollment : Enrollment :=
  { semester_id := "202301".toList, user_email := "e@x.y".toList,
    project := some ("p".toList), is_project_lead := false,
    is_coordinator := false, is_faculty_advisor := false }

/-- Witness for C9 at concrete inputs: the four-project owner is
blocked, the enrolled-with-project member is blocked, and a positive
outcome at an enrollment-free state yields the derived bounds. -/
theorem can_propose_project_owner_and_enrollment_limits_witness :
    c9owner.can_propose_project (some c9sem) 10 [] = false ∧
    c9member.can_propose_project (some c9sem) 10 [c9enrollment] = false ∧
    (c9member.owned_projects_count < 4 ∧
      ∀ s, (some c9sem : Option Semester) = some s →
        ∀ e, getEnrollment [] c9member s = some e → e.project = none) :=
  ⟨(can_propose_project_owner_and_enrollment_limits c9owner (some c9sem) 10 []).1
      (by decide),
   (can_propose_project_owner_and_enrollment_limits c9member (some c9sem) 10
        [c9enrollment]).2.1 c9sem c9enrollment rfl (by decide) (by decide),
   (can_propose_project_owner_and_enrollment_limits c9member (some c9sem) 10 []).2.2
      (by decide)⟩

/-- C10: the Discord linking callback answers BadRequest when the code
query parameter is absent or empty, leaving the user untouched and
unsaved; and the only way the user is saved is the success path, which
stores precisely the Discord user id fetched after a successful token
exchange and user-info fetch. -/
theorem discord_link_callback_requires_code_and_success (code : Option String)
    (get_tokens : String → Except String DiscordTokens)
    (get_user_info : Str → Except String DiscordUserInfo) (u : User) :
    ((code = none ∨ code = some "") →
      discord_link_callback code get_tokens get_user_info u =
        (LinkResponse.badRequest, u, false))
  ∧ (∀ resp u2,
      discord_link_callback code get_tokens get_user_info u = (resp, u2, true) →
      ∃ c tokens info, code = some c ∧ c ≠ "" ∧
        get_tokens c = Except.ok tokens ∧
        get_user_info tokens.access_token = Except.ok info ∧
        u2 = { u with discord_user_id := info.id } ∧
        resp = LinkResponse.redirectHome) := by
  constructor
  · rintro (rfl | rfl) <;> simp [discord_link_callback]
  · intro resp u2 h
    cases code with
    | none => simp [discord_link_callback] at h
    | some c =>
      by_cases hc : c = ""
      · subst hc
        simp [discord_link_callback] at h
      · cases hgt : get_tokens c with
        | error e => simp [discord_link_callback, hc, hgt] at h
        | ok tokens =>
          cases hgui : get_user_info tokens.access_token with
          | error e => simp [discord_link_callback, hc, hgt, hgui] at h
          | ok info =>
            simp [discord_link_callback, hc, hgt, hgui] at h
            exact ⟨c, tokens, info, rfl, hc, hgt, hgui, h.2.symm, h.1.symm⟩

/-- Sample user for the C10 witness. -/
def c10user : User :=
  { email := "u@x.y".toList, is_approved := true, role := Role.external,
    rcs_id := [], graduation_year := none, discord_user_id := [],
    is_active := true, owned_projects_count := 0, adding := false }

/-- Always-succeeding token exchange for the C10 witness. -/
def c10get_tokens : String → Except String DiscordTokens :=
  fun _ => Except.ok { access_token := "tok".toList }

/-- Always-succeeding user-info fetch for the C10 witness. -/
def c10get_user_info : Str → Except String DiscordUserInfo :=
  fun _ => Except.ok { id := "99887766".toList }

/-- Witness for C10 at concrete inputs: an absent code yields BadRequest
with the user unsaved, and a successful run through the callback yields
the success decomposition. -/
theorem discord_link_callback_requires_code_and_success_witness :
    discord_link_callback none c10get_tokens c10get_user_info c10user =
      (LinkResponse.badRequest, c10user, false) ∧
    (∃ c tokens info, (some "abc" : Option String) = some c ∧ c ≠ "" ∧
      c10get_tokens c = Except.ok tokens ∧
      c10get_user_info tokens.access_token = Except.ok info ∧
      ({ c10user with discord_user_id := ("99887766".toList) } : User) =
        { c10user with discord_user_id := info.id } ∧
      (LinkResponse.redirectHome : LinkResponse) = LinkResponse.redirectHome) :=
  ⟨(discord_link_callback_requires_code_and_success none c10get_tokens
      c10get_user_info c10user).1 (Or.inl rfl),
   (discord_link_callback_requires_code_and_success (some "abc") c10get_tokens
      c10get_user_info c10user).2 LinkResponse.redirectHome
      ({ c10user with discord_user_id := ("99887766".toList) }) rfl⟩

/-- Concrete unpublished meeting without a stored Discord event id, used
to refute C2 as stated. -/
def c2meeting : Meeting :=
  { pk := 1, name := [], type := MeetingType.workshop, is_published := false,
    starts_at := 0, ends_at := 1, location := [], presentation_url := [],
    discord_event_id := [] }

/-- Counterexample to C2 as stated: this meeting has no stored remote
event id, yet saving it makes no Discord API call at all (in particular
no create call) and stores no event id; the claim asserts a create
happens for every meeting without a stored id. -/
theorem sync_discord_event_counterexample :
    c2meeting.discord_event_id = [] ∧
    (sync_meeting_with_discord_event_on_save c2meeting ("12345".toList)).2 = [] ∧
    (sync_meeting_with_discord_event_on_save c2meeting
        ("12345".toList)).1.discord_event_id = [] := by
  refine ⟨rfl, ?_, ?_⟩ <;> decide

/-- C2 (amended): on save the meeting is synchronized with its Discord
event as follows: an unpublished meeting triggers no remote call and is
unchanged; a published meeting without a stored event id triggers a
create call (with its id stored on the meeting); a published meeting
with a stored event id triggers an update call carrying the display
name, start time, end time, description and location. -/
theorem sync_discord_event_amended (m : Meeting) (newEventId : Str) :
    sync_meeting_with_discord_event_on_save m newEventId =
      (if m.is_published = false then (m, ([] : List DiscordCall))
       else if m.discord_event_id = [] then
         ({ m with discord_event_id := newEventId },
          [DiscordCall.createEvent m.display_name m.starts_at m.ends_at
             m.event_description m.location])
       else
         (m, [DiscordCall.updateEvent m.discord_event_id m.display_name
                m.starts_at m.ends_at m.event_description m.location])) := by
  unfold sync_meeting_with_discord_event_on_save Meeting.sync_discord_event
  by_cases hp : m.is_published = true
  · by_cases hid : m.discord_event_id = []
    · simp [hp, hid]
    · simp [hp, hid]
  · have hp2 : m.is_published = false := Bool.not_eq_true _ |>.mp hp
    simp [hp2]


/-- The UNIQUE-constraint invariant as a proposition: all rows have
pairwise distinct keys. -/
def KeyUnique {α κ : Type} (key : α → κ) (t : List α) : Prop :=
  t.Pairwise fun a b => key a ≠ key b

theorem hasKey_eq_false_iff {α κ : Type} [DecidableEq κ] (key : α → κ)
    (t : List α) (k : κ) : hasKey key t k = false ↔ ∀ x ∈ t, key x ≠ k := by
  simp [hasKey]

theorem distinctKeys_iff {α κ : Type} [DecidableEq κ] (key : α → κ)
    (t : List α) : distinctKeys key t = true ↔ KeyUnique key t := by
  induction t with
  | nil => simp [distinctKeys, KeyUnique]
  | cons x xs ih =>
    rw [distinctKeys, Bool.and_eq_true, Bool.not_eq_true']
    rw [hasKey_eq_false_iff, KeyUnique, List.pairwise_cons]
    rw [ih]
    constructor
    · rintro ⟨h1, h2⟩
      exact ⟨fun b hb => (h1 b hb).symm, h2⟩
    · rintro ⟨h1, h2⟩
      exact ⟨fun b hb => (h1 b hb).symm, h2⟩

theorem applyOp_preserves_keyUnique {α κ : Type} [DecidableEq κ]
    (key : α → κ) (t : List α) (op : TableOp α) (h : KeyUnique key t) :
    KeyUnique key (applyOp key t op) := by
  cases op with
  | insert r =>
    unfold applyOp
    dsimp only
    by_cases hk : hasKey key t (key r) = true
    · rw [if_pos hk]
      exact h
    · rw [if_neg hk]
      rw [KeyUnique, List.pairwise_append]
      refine ⟨h, List.pairwise_singleton _ _, ?_⟩
      intro a ha b hb
      have hb2 : b = r := by simpa using hb
      subst hb2
      exact (hasKey_eq_false_iff key t (key b)).mp
        (Bool.not_eq_true _ |>.mp hk) a ha
  | delete c =>
    exact List.Pairwise.filter _ h
  | update c f =>
    unfold applyOp
    dsimp only
    by_cases hd : distinctKeys key (t.map fun x => if c x then f x else x) = true
    · rw [if_pos hd]
      exact (distinctKeys_iff key _).mp hd
    · rw [if_neg hd]
      exact h

theorem applyOps_preserves_keyUnique {α κ : Type} [DecidableEq κ]
    (key : α → κ) (ops : List (TableOp α)) (t : List α) (h : KeyUnique key t) :
    KeyUnique key (applyOps key t ops) := by
  induction ops generalizing t with
  | nil => exact h
  | cons op ops ih =>
    exact ih (applyOp key t op) (applyOp_preserves_keyUnique key t op h)

theorem countP_le_one_of_keyUnique {α κ : Type} [DecidableEq κ]
    (key : α → κ) (t : List α) (h : KeyUnique key t) (k : κ) :
    t.countP (fun x => key x = k) ≤ 1 := by
  induction t with
  | nil => simp
  | cons x xs ih =>
    rw [KeyUnique, List.pairwise_cons] at h
    obtain ⟨hx, hxs⟩ := h
    rw [List.countP_cons]
    by_cases hk : key x = k
    · have hz : xs.countP (fun x => decide (key x = k)) = 0 := by
        rw [List.countP_eq_zero]
        intro a ha
        simp only [decide_eq_true_eq]
        rw [← hk]
        exact fun hh => (hx a ha) hh.symm
      simp [hz, hk]
    · simp only [decide_eq_true_eq, hk, if_false]
      exact Nat.le_trans (Nat.le_of_eq (Nat.add_zero _)) (ih hxs)

/-- C3: starting from the empty (freshly migrated) table, any sequence
of INSERT/DELETE/UPDATE statements run under the UNIQUE
`("semester", "project")` constraint of migration 0003 leaves at most one
`ProjectPitch` row per semester and project. -/
theorem projectpitch_unique_per_semester_and_project
    (ops : List (TableOp ProjectPitch)) (sid pid : Str) :
    (applyOps pitchKey [] ops).countP
      (fun r => r.semester = sid ∧ r.project = pid) ≤ 1 := by
  have hu : KeyUnique pitchKey (applyOps pitchKey [] ops) :=
    applyOps_preserves_keyUnique pitchKey ops [] (List.Pairwise.nil)
  have h2 := countP_le_one_of_keyUnique pitchKey _ hu (sid, pid)
  have hpred : (fun (r : ProjectPitch) => decide (r.semester = sid ∧ r.project = pid))
      = fun r => decide (pitchKey r = (sid, pid)) := by
    funext r
    rw [decide_eq_decide]
    simp [pitchKey, Prod.ext_iff]
  rw [hpred]
  exact h2

/-- C7: starting from the empty table, any sequence of
INSERT/DELETE/UPDATE statements run under the UNIQUE
`("semester", "user")` constraint of `Enrollment.Meta` leaves at most one
`Enrollment` row per semester and user. -/
theorem enrollment_unique_per_semester_and_user
    (ops : List (TableOp Enrollment)) (sid uid : Str) :
    (applyOps enrollmentKey [] ops).countP
      (fun e => e.semester_id = sid ∧ e.user_email = uid) ≤ 1 := by
  have hu : KeyUnique enrollmentKey (applyOps enrollmentKey [] ops) :=
    applyOps_preserves_keyUnique enrollmentKey ops [] (List.Pairwise.nil)
  have h2 := countP_le_one_of_keyUnique enrollmentKey _ hu (sid, uid)
  have hpred : (fun (e : Enrollment) => decide (e.semester_id = sid ∧ e.user_email = uid))
      = fun e => decide (enrollmentKey e = (sid, uid)) := by
    funext e
    rw [decide_eq_decide]
    simp [enrollmentKey, Prod.ext_iff]
  rw [hpred]
  exact h2


/-- C8: the dashboard context branches on authentication.  For an
unauthenticated request the ongoing-meeting slot is set to `None`, the
enrollment count, project count and active-semester admin list come from
the cache with the database query as fallback, and every cache write
performed carries the 24-hour timeout `60 * 60 * 24` (one write per
splash statistic that was absent from the cache).  For an authenticated
request no cache write happens, the context instead carries the
requesting user enrollment for the active semester (`None` when there is
no active semester), the enrollments of the project teammates, and the
results of the three permission checks computed directly from the check
functions. -/
theorem index_context_branches {μ χ : Type} (authenticated : Bool)
    (user : User) (cache : Cache) (db : PortalDB) (now : Nat)
    (next_meeting ongoing : Option μ) (checkUserRPI : User → χ)
    (checkUserCanEnroll checkUserCanCreateProject :
      User → Option Semester → χ) :
    (get_context_data authenticated user cache db now next_meeting ongoing
        checkUserRPI checkUserCanEnroll checkUserCanCreateProject).1.ongoing_meeting
      = (if authenticated then ongoing else none)
  ∧ (get_context_data authenticated user cache db now next_meeting ongoing
        checkUserRPI checkUserCanEnroll checkUserCanCreateProject).1.enrollment_count
      = (if authenticated then none
         else some (cache.enrollment_count.getD db.enrollments.length))
  ∧ (get_context_data authenticated user cache db now next_meeting ongoing
        checkUserRPI checkUserCanEnroll checkUserCanCreateProject).1.project_count
      = (if authenticated then none
         else some (cache.project_count.getD db.projects_count))
  ∧ (get_context_data authenticated user cache db now next_meeting ongoing
        checkUserRPI checkUserCanEnroll checkUserCanCreateProject).1.active_semester_admins
      = (if authenticated then none
         else some (cache.active_semester_admins.getD
            (semesterAdmins db cache.active_semester)))
  ∧ (get_context_data authenticated user cache db now next_meeting ongoing
        checkUserRPI checkUserCanEnroll checkUserCanCreateProject).1.is_user_rpi_check
      = (if authenticated then some (checkUserRPI user) else none)
  ∧ (get_context_data authenticated user cache db now next_meeting ongoing
        checkUserRPI checkUserCanEnroll checkUserCanCreateProject).1.can_enroll_check
      = (if authenticated then some (checkUserCanEnroll user cache.active_semester)
         else none)
  ∧ (get_context_data authenticated user cache db now next_meeting ongoing
        checkUserRPI checkUserCanEnroll checkUserCanCreateProject).1.can_create_project_check
      = (if authenticated then
           some (checkUserCanCreateProject user cache.active_semester)
         else none)
  ∧ (get_context_data authenticated user cache db now next_meeting ongoing
        checkUserRPI checkUserCanEnroll checkUserCanCreateProject).1.enrollment
      = (if authenticated then
           some (match cache.active_semester with
                 | some s =>
                   db.enrollments.find? fun (e : Enrollment) =>
                     e.user_email = user.email ∧ e.semester_id = s.id
                 | none => none)
         else none)
  ∧ (get_context_data authenticated user cache db now next_meeting ongoing
        checkUserRPI checkUserCanEnroll checkUserCanCreateProject).1.project_team_enrollments
      = (if authenticated then
           some (match (match cache.active_semester with
                        | some s =>
                          db.enrollments.find? fun (e : Enrollment) =>
                            e.user_email = user.email ∧ e.semester_id = s.id
                        | none => none) with
                 | some e =>
                   match e.project with
                   | some p =>
                     db.enrollments.filter fun e2 =>
                       decide (e2.project = some p) &&
                         (match cache.active_semester with
                          | some s2 => decide (e2.semester_id = s2.id)
                          | none => false)
                   | none => []
                 | none => [])
         else none)
  ∧ (get_context_data authenticated user cache db now next_meeting ongoing
        checkUserRPI checkUserCanEnroll checkUserCanCreateProject).2
      = (if authenticated then []
         else
           (if cache.enrollment_count.isNone then
             [⟨"enrollment_count", 60 * 60 * 24⟩]
           else [])
             ++ (if cache.project_count.isNone then
                  [⟨"project_count", 60 * 60 * 24⟩]
                else [])
             ++ (if cache.active_semester_admins.isNone then
                  [⟨"active_semester_admins", 60 * 60 * 24⟩]
                else [])) := by
  cases authenticated <;>
    exact ⟨rfl, rfl, rfl, rfl, rfl, rfl, rfl, rfl, rfl, rfl⟩

theorem all_takeWhile_self {α : Type} (p : α → Bool) (l : List α) :
    (l.takeWhile p).all p = true := by
  induction l with
  | nil => rfl
  | cons c cs ih =>
    rw [List.takeWhile_cons]
    by_cases h : p c = true
    · rw [if_pos h, List.all_cons, h, Bool.true_and]
      exact ih
    · rw [if_neg h]
      rfl

theorem length_le_length_takeWhile_append {α : Type} (p : α → Bool)
    (mid r : List α) (hall : mid.all p = true) :
    mid.length ≤ ((mid ++ r).takeWhile p).length := by
  induction mid with
  | nil => simp
  | cons c cs ih =>
    rw [List.all_cons, Bool.and_eq_true] at hall
    rw [List.cons_append, List.takeWhile_cons, if_pos hall.1]
    simpa using ih hall.2

theorem reSearch_dropWhile (s : Str)
    (h : (s.takeWhile wordDash).length < 25) :
    reSearchWordRun s = reSearchWordRun (s.dropWhile wordDash) := by
  induction s with
  | nil => rfl
  | cons c cs ih =>
    by_cases hw : wordDash c = true
    · have htw : (c :: cs).takeWhile wordDash = c :: cs.takeWhile wordDash := by
        rw [List.takeWhile_cons, if_pos hw]
      rw [reSearchWordRun, if_neg (Nat.not_le.mpr h)]
      rw [List.dropWhile_cons, if_pos hw]
      apply ih
      rw [htw] at h
      exact Nat.lt_of_succ_lt h
    · rw [List.dropWhile_cons, if_neg hw]

theorem reSearchWordRun_eq_firstLongWordRun (s : Str) :
    reSearchWordRun s = firstLongWordRun s := by
  match s with
  | [] => simp [reSearchWordRun, firstLongWordRun, wordRuns]
  | c :: cs =>
    by_cases hw : wordDash c = true
    · have htw : (c :: cs).takeWhile wordDash = c :: cs.takeWhile wordDash := by
        rw [List.takeWhile_cons, if_pos hw]
      by_cases hlen : 25 ≤ ((c :: cs).takeWhile wordDash).length
      · rw [reSearchWordRun, if_pos hlen]
        rw [firstLongWordRun, wordRuns, if_pos hw]
        rw [List.find?_cons_of_pos]
        · rw [htw]
        · simp only [decide_eq_true_eq]
          rw [← htw]
          exact hlen
      · have hlt : ((c :: cs).takeWhile wordDash).length < 25 := Nat.not_le.mp hlen
        have hdw : (c :: cs).dropWhile wordDash = cs.dropWhile wordDash := by
          rw [List.dropWhile_cons, if_pos hw]
        have h1 : reSearchWordRun (c :: cs) = reSearchWordRun (cs.dropWhile wordDash) := by
          rw [reSearch_dropWhile (c :: cs) hlt, hdw]
        have h2 : firstLongWordRun (c :: cs) = firstLongWordRun (cs.dropWhile wordDash) := by
          rw [firstLongWordRun, wordRuns, if_pos hw, List.find?_cons_of_neg]
          · rfl
          · simp only [decide_eq_true_eq]
            rw [← htw]
            exact hlen
        rw [h1, reSearchWordRun_eq_firstLongWordRun (cs.dropWhile wordDash), h2]
    · have htw : (c :: cs).takeWhile wordDash = [] := by
        rw [List.takeWhile_cons, if_neg hw]
      have h1 : reSearchWordRun (c :: cs) = reSearchWordRun cs := by
        rw [reSearchWordRun, if_neg (by rw [htw]; simp)]
      have h2 : firstLongWordRun (c :: cs) = firstLongWordRun cs := by
        rw [firstLongWordRun, wordRuns, if_neg hw]
        rfl
      rw [h1, reSearchWordRun_eq_firstLongWordRun cs, h2]
termination_by s.length
decreasing_by
  · simp only [List.length_cons]
    exact Nat.lt_succ_of_le (List.dropWhile_sublist wordDash).length_le
  · simp

theorem reSearch_isSome_of_decomp (l mid r : Str)
    (hall : mid.all wordDash = true) (hlen : 25 ≤ mid.length) :
    (reSearchWordRun (l ++ (mid ++ r))).isSome = true := by
  induction l with
  | nil =>
    rw [List.nil_append]
    cases mid with
    | nil => simp at hlen
    | cons mc ms =>
      have h25 : 25 ≤ (((mc :: ms) ++ r).takeWhile wordDash).length :=
        Nat.le_trans hlen (length_le_length_takeWhile_append wordDash _ r hall)
      rw [List.cons_append] at h25
      rw [List.cons_append, reSearchWordRun, if_pos h25]
      rfl
  | cons c l2 ih =>
    rw [List.cons_append, reSearchWordRun]
    by_cases h : 25 ≤ ((c :: (l2 ++ (mid ++ r))).takeWhile wordDash).length
    · rw [if_pos h]
      rfl
    · rw [if_neg h]
      exact ih

theorem reSearchWordRun_isSome_iff (s : Str) :
    (reSearchWordRun s).isSome = true ↔
      ∃ l mid r, s = l ++ mid ++ r ∧ mid.all wordDash = true ∧ 25 ≤ mid.length := by
  constructor
  · intro h
    induction s with
    | nil => simp [reSearchWordRun] at h
    | cons c cs ih =>
      by_cases hc : 25 ≤ ((c :: cs).takeWhile wordDash).length
      · refine ⟨[], (c :: cs).takeWhile wordDash, (c :: cs).dropWhile wordDash,
          ?_, all_takeWhile_self wordDash (c :: cs), hc⟩
        rw [List.nil_append, List.takeWhile_append_dropWhile]
      · rw [reSearchWordRun, if_neg hc] at h
        obtain ⟨l, mid, r, hs, hall, hlen⟩ := ih h
        refine ⟨c :: l, mid, r, ?_, hall, hlen⟩
        rw [List.cons_append, List.cons_append] at *
        rw [hs]
  · rintro ⟨l, mid, r, hs, hall, hlen⟩
    have h2 := reSearch_isSome_of_decomp l mid r hall hlen
    rw [hs, List.append_assoc]
    exact h2

/-- C6: the derived embed URL is present exactly when the presentation
URL is nonempty, contains the Google Slides path fragment, and contains
a run of at least 25 word-or-hyphen characters; and its value embeds the
first such maximal run as the presentation id. -/
theorem presentation_embed_url_spec (m : Meeting) :
    ((m.presentation_embed_url).isSome = true ↔
        (¬m.presentation_url = [] ∧
         hasSubstring ("docs.google.com/presentation/d".toList)
            m.presentation_url = true ∧
         ∃ l mid r, m.presentation_url = l ++ mid ++ r ∧
           mid.all wordDash = true ∧ 25 ≤ mid.length))
  ∧ m.presentation_embed_url =
      (if ¬m.presentation_url = [] ∧
          hasSubstring ("docs.google.com/presentation/d".toList)
            m.presentation_url = true then
        (firstLongWordRun m.presentation_url).map
          (fun run => ("https://docs.google.com/presentation/d/".toList)
            ++ run ++ ("/embed".toList))
       else none) := by
  constructor
  · unfold Meeting.presentation_embed_url
    by_cases hc : ¬m.presentation_url = [] ∧
        hasSubstring ("docs.google.com/presentation/d".toList)
          m.presentation_url = true
    · rw [if_pos hc]
      have hiff := reSearchWordRun_isSome_iff m.presentation_url
      cases hr : reSearchWordRun m.presentation_url with
      | none =>
        rw [hr] at hiff
        simp only [Option.isSome_none, Bool.false_eq_true, false_iff] at hiff
        constructor
        · intro hh
          simp at hh
        · rintro ⟨h1, h2, hex⟩
          exact absurd hex hiff
      | some run =>
        rw [hr] at hiff
        simp only [Option.isSome_some, true_iff] at hiff
        exact ⟨fun _ => ⟨hc.1, hc.2, hiff⟩, fun _ => rfl⟩
    · rw [if_neg hc]
      constructor
      · intro hh
        simp at hh
      · rintro ⟨h1, h2, _⟩
        exact absurd ⟨h1, h2⟩ hc
  · unfold Meeting.presentation_embed_url
    by_cases hc : ¬m.presentation_url = [] ∧
        hasSubstring ("docs.google.com/presentation/d".toList)
          m.presentation_url = true
    · rw [if_pos hc, if_pos hc, ← reSearchWordRun_eq_firstLongWordRun]
      cases hr : reSearchWordRun m.presentation_url with
      | none => rfl
      | some run => rfl
    · rw [if_neg hc, if_neg hc]

end Portal
